import Mathlib

/-!
Verification model of the ZKTeco integration scripts (attlog_parser.py,
Dbcon.py, Main.py, Post.py, Cmd.py, TcpServer.py, FT-ZK.py).

The Python code is embedded shallowly: each Lean definition mirrors one
Python function (named in its doc comment); string handling uses
structural recursion over character lists so that concrete runs reduce
inside the kernel.
-/

/-! ## String primitives mirroring Python built-ins -/

/-- Character class used by Python `str.split()` / `str.strip()` with no
argument (ASCII whitespace; the unicode extras never occur in this data). -/
def isPySpace (c : Char) : Bool :=
  c = ' ' || c = '\t' || c = '\n' || c = '\r' || c = '\x0b' || c = '\x0c'

/-- Split at every occurrence of a single separator character, keeping
empty segments — Python `str.split(sep)` for a one-character `sep`. -/
def splitOnChar (sep : Char) : List Char → List (List Char)
  | [] => [[]]
  | c :: cs =>
    if c = sep then [] :: splitOnChar sep cs
    else
      match splitOnChar sep cs with
      | [] => [[c]]
      | seg :: rest => (c :: seg) :: rest

/-- Helper for whitespace tokenization (Python `str.split()` with no
argument): runs of whitespace separate tokens, empty tokens are dropped. -/
def tokensWSAux (acc : List Char) : List Char → List (List Char)
  | [] => if acc.isEmpty then [] else [acc.reverse]
  | c :: cs =>
    if isPySpace c then
      if acc.isEmpty then tokensWSAux [] cs
      else acc.reverse :: tokensWSAux [] cs
    else tokensWSAux (c :: acc) cs

/-- Python `s.split()` (no argument). -/
def pyTokens (s : String) : List String :=
  (tokensWSAux [] s.data).map fun cs => ⟨cs⟩

/-- Drop leading Python whitespace. -/
def dropLeadingWS : List Char → List Char
  | [] => []
  | c :: cs => if isPySpace c then dropLeadingWS cs else c :: cs

/-- Python `s.strip()`. -/
def pyStrip (s : String) : String :=
  ⟨(dropLeadingWS (dropLeadingWS s.data).reverse).reverse⟩

/-- Python `s.split("\t")`, as used on raw attendance lines. -/
def splitTabs (s : String) : List String :=
  (splitOnChar '\t' s.data).map fun cs => ⟨cs⟩

/-- Helper for Python `str.splitlines()`: split at `\r\n`, `\r` or `\n`. -/
def splitLinesAux (acc : List Char) : List Char → List (List Char)
  | [] => [acc.reverse]
  | '\r' :: '\n' :: cs => acc.reverse :: splitLinesAux [] cs
  | '\r' :: cs => acc.reverse :: splitLinesAux [] cs
  | '\n' :: cs => acc.reverse :: splitLinesAux [] cs
  | c :: cs => splitLinesAux (c :: acc) cs

/-- Python `s.splitlines()`: a trailing terminator does not produce a
final empty line, and the empty string has no lines. -/
def pySplitLines (s : String) : List String :=
  if s.data.isEmpty then []
  else
    let segs := splitLinesAux [] s.data
    let segs := if segs.getLast? = some [] then segs.dropLast else segs
    segs.map fun cs => ⟨cs⟩

/-- Containment of `needle` in `hay` as character lists (Python `in`). -/
def charsContains (needle : List Char) : List Char → Bool
  | [] => needle.isEmpty
  | c :: cs => needle.isPrefixOf (c :: cs) || charsContains needle cs

/-- Python `needle in hay` for strings. -/
def strContains (hay needle : String) : Bool :=
  charsContains needle.data hay.data

/-- Fuel-indexed splitting on a multi-character separator (Python
`str.split(sep)`); the fuel is an upper bound on the input length. -/
def splitOnSeqAux (sep : List Char) : Nat → List Char → List (List Char)
  | _, [] => [[]]
  | 0, cs => [cs]
  | Nat.succ n, c :: cs =>
    if !sep.isEmpty && sep.isPrefixOf (c :: cs) then
      [] :: splitOnSeqAux sep n (List.drop sep.length (c :: cs))
    else
      match splitOnSeqAux sep n cs with
      | [] => [[c]]
      | seg :: rest => (c :: seg) :: rest

/-- Python `s.split(sep)` for a non-empty string separator. -/
def pySplit (s sep : String) : List String :=
  (splitOnSeqAux sep.data (s.length + 1) s.data).map fun cs => ⟨cs⟩

/-- Python `s.replace(pat, rep)`. -/
def pyReplace (s pat rep : String) : String :=
  String.intercalate rep (pySplit s pat)

/-- Digits-only string to number (empty or non-digit input fails). -/
def digitsToNat? (cs : List Char) : Option Nat :=
  if cs.isEmpty || !cs.all Char.isDigit then none
  else some (cs.foldl (fun n c => 10 * n + (c.toNat - 48)) 0)

/-- Python `int(s)`: strip whitespace, optional sign, decimal digits. -/
def parseIntQ (s : String) : Option Int :=
  match (pyStrip s).data with
  | '-' :: rest => (digitsToNat? rest).map fun n => -(n : Int)
  | '+' :: rest => (digitsToNat? rest).map fun n => (n : Int)
  | cs => (digitsToNat? cs).map fun n => (n : Int)

/-! ## Timestamp handling (`datetime.strptime` / `strftime`) -/

def isLeapYear (y : Nat) : Bool :=
  (y % 4 = 0 && y % 100 ≠ 0) || y % 400 = 0

def daysInMonth (y m : Nat) : Nat :=
  if m = 2 then (if isLeapYear y then 29 else 28)
  else if m = 4 || m = 6 || m = 9 || m = 11 then 30
  else 31

/-- Parse one `strptime` field: at most `maxW` digits, value in range. -/
def parseField (cs : List Char) (maxW lo hi : Nat) : Option Nat :=
  if cs.length > maxW then none
  else match digitsToNat? cs with
    | none => none
    | some n => if lo ≤ n && n ≤ hi then some n else none

/-- Parse a timestamp of shape `Y<sep>M<sep>D H:M:S` the way
`datetime.strptime` with the corresponding format validates it
(field widths, ranges, and day-of-month against the calendar). -/
def parseStamp (dateSep : Char) (s : String) : Option (Nat × Nat × Nat × Nat × Nat × Nat) :=
  match splitOnChar ' ' s.data with
  | [d, t] =>
    match splitOnChar dateSep d, splitOnChar ':' t with
    | [ys, ms, ds], [hs, mis, ss] =>
      match parseField ys 4 0 9999, parseField ms 2 1 12 with
      | some y, some mo =>
        match parseField ds 2 1 (daysInMonth y mo), parseField hs 2 0 23,
              parseField mis 2 0 59, parseField ss 2 0 59 with
        | some da, some h, some mi, some se => some (y, mo, da, h, mi, se)
        | _, _, _, _ => none
      | _, _ => none
    | _, _ => none
  | _ => none

def pad2 (n : Nat) : String := if n < 10 then "0" ++ toString n else toString n

def pad4 (n : Nat) : String :=
  if n < 10 then "000" ++ toString n
  else if n < 100 then "00" ++ toString n
  else if n < 1000 then "0" ++ toString n
  else toString n

/-- `strftime` for a fixed date separator: zero-padded fields. -/
def fmtStamp (dateSep : String) (v : Nat × Nat × Nat × Nat × Nat × Nat) : String :=
  match v with
  | (y, mo, da, h, mi, se) =>
    pad4 y ++ dateSep ++ pad2 mo ++ dateSep ++ pad2 da ++ " " ++
    pad2 h ++ ":" ++ pad2 mi ++ ":" ++ pad2 se

/-- `datetime.strptime(s, "%Y-%m-%d %H:%M:%S").strftime("%Y/%m/%d %H:%M:%S")`
(attlog_parser.py line 86); `none` models the `ValueError` raised on
malformed input. -/
def formatTimestamp (s : String) : Option String :=
  (parseStamp '-' s).map (fmtStamp "/")

/-- `datetime.strptime(Timestamp, "%Y/%m/%d %H:%M:%S").strftime("%Y-%m-%d %H:%M:%S")`
(Dbcon.py line 85). -/
def formatToSql (s : String) : Option String :=
  (parseStamp '/' s).map (fmtStamp "-")

/-! ## Log Normalizer: `AttLogParser` (attlog_parser.py) -/

/-- One sanitized entry of the intermediate log `attlog.json`, as built by
`AttLogParser.parse_and_write` (attlog_parser.py lines 95-103). -/
structure AttEntry where
  ZKID : String
  Timestamp : String
  InorOut : Int
  attype : Int
  Device : String
  SN : String
  Devrec : String
deriving DecidableEq, Repr

/-- Deduplication key `(ZKID, Timestamp, attype)` (attlog_parser.py line 93). -/
abbrev LogKey := String × String × Int

def entryKey (e : AttEntry) : LogKey := (e.ZKID, e.Timestamp, e.attype)

/-- `AttLogParser.load_existing_data` (lines 22-31): the seen-key set is
hydrated from the entries currently in `attlog.json`. -/
def load_existing_data (fileData : List AttEntry) : List LogKey :=
  fileData.map entryKey

/-- Outcome of the body of the `for line in lines` loop of
`parse_and_write` on one line: skipped, aborted by an uncaught
`ValueError`, or parsed into a sanitized record. -/
inductive LineOutcome where
  | skip
  | abort
  | record (e : AttEntry)
deriving DecidableEq, Repr

/-- The per-line work of `AttLogParser.parse_and_write` (lines 80-92):
only lines containing `"attlog"` with at least 12 tab-separated parts are
parsed; `strptime` or `int` failures raise (abort). -/
def parseLine (line : String) : LineOutcome :=
  if strContains line "attlog" then
    let parts := splitTabs line
    if parts.length < 12 then .skip
    else
      match formatTimestamp (pyStrip (parts.getD 1 "")),
            parseIntQ (parts.getD 2 ""), parseIntQ (parts.getD 3 "") with
      | some ts, some io, some ty =>
        .record { ZKID := pyStrip (parts.getD 0 ""), Timestamp := ts,
                  InorOut := io, attype := ty,
                  Device := pyStrip (parts.getD 10 ""),
                  SN := pyStrip (parts.getD 11 ""),
                  Devrec := pyStrip (parts.getD 4 "") }
      | _, _, _ => .abort
  else .skip

/-- The dedup loop of `parse_and_write` (lines 80-104): thread the
seen-key set through the lines, collecting the unseen sanitized records
in order; `none` models an uncaught exception. -/
def processLines (seen : List LogKey) : List String → Option (List LogKey × List AttEntry)
  | [] => some (seen, [])
  | l :: ls =>
    match parseLine l with
    | .skip => processLines seen ls
    | .abort => none
    | .record e =>
      if entryKey e ∈ seen then processLines seen ls
      else
        match processLines (entryKey e :: seen) ls with
        | none => none
        | some (seen', san) => some (seen', e :: san)

/-- In-memory state of one `AttLogParser` plus the parsed contents of its
`attlog.json` file: `existing` is `self.existing_data`, `fileData` the
entry list on disk, `lastPosition` is `self.last_position`. -/
structure ParserState where
  existing : List LogKey
  fileData : List AttEntry
  lastPosition : Nat
deriving DecidableEq, Repr

/-- `AttLogParser.__init__` (lines 11-20): seen-set hydrated from the
file, `last_position = 0`. -/
def initParser (fileData : List AttEntry) : ParserState :=
  { existing := load_existing_data fileData, fileData := fileData, lastPosition := 0 }

/-- `AttLogParser.parse_and_write` on string content followed by
`write_to_output` (lines 70-135): unseen records are appended to the file
(via queue, then atomic rename). `none` models an uncaught exception. -/
def parse_and_write (st : ParserState) (content : String) : Option ParserState :=
  match processLines st.existing (pySplitLines content) with
  | none => none
  | some (seen', san) =>
    some { st with existing := seen', fileData := st.fileData ++ san }

/-- `AttLogParser.check_for_new_content` (lines 57-68): read the file
from `last_position` on, set `last_position` to the end of file, and
parse whatever was new. -/
def check_for_new_content (st : ParserState) (fileText : String) : Option ParserState :=
  let newContent : String := ⟨fileText.data.drop st.lastPosition⟩
  let st1 := { st with lastPosition := fileText.data.length }
  if newContent.data.isEmpty then some st1
  else parse_and_write st1 newContent

example : parseLine "200\t2025-01-16 06:00:46\t0\t15\t0\t0\t0\t255\t0\t0\tattlog-dev\tCP9M221860043" =
    .record { ZKID := "200", Timestamp := "2025/01/16 06:00:46", InorOut := 0, attype := 15,
              Device := "attlog-dev", SN := "CP9M221860043", Devrec := "0" } := by decide

example : parseLine "no such marker here" = .skip := by decide

/-! ## Attendance Store: `Dbcon` + `Main.check_db` (Dbcon.py, Main.py) -/

/-- One row of the `attendance` table (schema of Main.check_db lines
36-48): punch columns plus the three forward-status columns, which are
`NULL` until Outbound Sync fills them. -/
structure DbRow where
  id : Nat
  ZKID : String
  Timestamp : String
  InorOut : Int
  attype : Int
  Device : String
  SN : String
  Devrec : String
  RESPONSE : Option String
  KEY : Option String
  FTID : Option String
deriving DecidableEq, Repr

/-- The `attendance` table with its AUTOINCREMENT id source (sqlite ids
start at 1). -/
structure AttDB where
  rows : List DbRow
  nextId : Nat
deriving DecidableEq, Repr

/-- `Dbcon.record_exists` (Dbcon.py lines 16-22):
`SELECT 1 FROM attendance WHERE Devrec = ? AND Timestamp = ?`. -/
def record_exists (db : AttDB) (devrec ts : String) : Bool :=
  db.rows.any fun r => r.Devrec == devrec && r.Timestamp == ts

/-- The `UNIQUE(ZKID, Timestamp)` constraint created by `Main.check_db`
(Main.py lines 69-85): true when inserting this key would violate it. -/
def violatesUnique (db : AttDB) (zkid ts : String) : Bool :=
  db.rows.any fun r => r.ZKID == zkid && r.Timestamp == ts

/-- `INSERT INTO attendance (ZKID, Timestamp, InorOut, attype, Device, SN, Devrec)`
(Dbcon.py lines 93-96) against a table with the unique index: on a
constraint violation sqlite raises, `Dbcon` swallows the `sqlite3.Error`
(line 98) and the table is unchanged; otherwise the row is appended with
the three forward-status columns left `NULL`. -/
def insertPunch (db : AttDB) (zkid ts : String) (io ty : Int) (dev sn devrec : String) : AttDB :=
  if violatesUnique db zkid ts then db
  else
    { rows := db.rows ++ [{ id := db.nextId, ZKID := zkid, Timestamp := ts,
                            InorOut := io, attype := ty, Device := dev, SN := sn,
                            Devrec := devrec, RESPONSE := none, KEY := none, FTID := none }],
      nextId := db.nextId + 1 }

/-- Body of the entry loop of `Dbcon.process_attlog_file` (Dbcon.py lines
69-105) for one entry (entries produced by the normalizer carry all
keys): skip keys already in `processed_entries`; a malformed timestamp
skips the entry; `record_exists` short-circuits; otherwise insert. -/
def processEntryDb (processed : List LogKey) (db : AttDB) (e : AttEntry) : List LogKey × AttDB :=
  if entryKey e ∈ processed then (processed, db)
  else
    match formatToSql e.Timestamp with
    | none => (processed, db)
    | some ts =>
      if record_exists db e.Devrec ts then (entryKey e :: processed, db)
      else (entryKey e :: processed,
            insertPunch db e.ZKID ts e.InorOut e.attype e.Device e.SN e.Devrec)

/-- `Dbcon.process_attlog_file` (Dbcon.py lines 24-115) over the parsed
contents of `attlog.json`. -/
def process_attlog_file (processed : List LogKey) (db : AttDB) (content : List AttEntry) :
    List LogKey × AttDB :=
  content.foldl (fun st e => processEntryDb st.1 st.2 e) (processed, db)

/-- No two rows share the `(ZKID, Timestamp)` pair — the store invariant
enforced by `Main.check_db`'s unique index. -/
def rowsKeyDistinct : List DbRow → Bool
  | [] => true
  | r :: rest =>
    (rest.all fun s => !(r.ZKID == s.ZKID && r.Timestamp == s.Timestamp)) && rowsKeyDistinct rest

/-! ## Outbound Sync: `PostScript` (Post.py) and `post_records` (FT-ZK.py) -/

/-- A well-formed acknowledgement body: first element of the returned
array carrying `status`, `key`, `id` (Post.py line 95). -/
structure Ack where
  status : String
  key : String
  rid : String
deriving DecidableEq, Repr

/-- Result of one forward call: a network failure
(`requests.exceptions.RequestException`), a non-200 HTTP status, or a 200
with a well-formed acknowledgement. -/
inductive Outcome where
  | netFail
  | httpFail (code : Nat)
  | ok (ack : Ack)
deriving DecidableEq, Repr

/-- The effect of the single update statement on one row: exactly the
three forward-status columns receive the acknowledged values, every
punch column is untouched. -/
def forwardRow (r : DbRow) (ack : Ack) : DbRow :=
  { r with RESPONSE := some ack.status, KEY := some ack.key, FTID := some ack.rid }

/-- `UPDATE attendance SET RESPONSE = ?, KEY = ?, FTID = ? WHERE id = ?`
(Post.py lines 91-95, FT-ZK.py lines 447-451): the three forward-status
columns of the matching row are written by one statement. -/
def updateForward (db : AttDB) (rid : Nat) (ack : Ack) : AttDB :=
  { db with rows := db.rows.map fun r => if r.id == rid then forwardRow r ack else r }

/-- `PostScript.fetch_new_records` (Post.py lines 38-46):
`SELECT * FROM attendance WHERE id > ? AND RESPONSE IS NULL` with the
cached `last_processed_id`. -/
def fetch_new_records (db : AttDB) (lastProcessedId : Nat) : List DbRow :=
  db.rows.filter fun r => decide (lastProcessedId < r.id) && r.RESPONSE.isNone

/-- One record of the loop body of `PostScript.post_and_update_records`
(Post.py lines 52-109): on 200 with well-formed body, update the three
columns and advance `last_processed_id` to this row's id; on a request
exception or non-200 status, leave everything unchanged. -/
def postProcessRecord (oracle : Nat → Outcome) (st : AttDB × Nat) (r : DbRow) : AttDB × Nat :=
  match oracle r.id with
  | .netFail => st
  | .httpFail _ => st
  | .ok ack => (updateForward st.1 r.id ack, r.id)

/-- One polling pass of `PostScript.post_and_update_records` (Post.py
lines 48-112): fetch the snapshot, then process each fetched row. -/
def post_pass (db : AttDB) (last : Nat) (oracle : Nat → Outcome) : AttDB × Nat :=
  (fetch_new_records db last).foldl (postProcessRecord oracle) (db, last)

/-- A sequence of polling passes of `PostScript`, one remote-outcome
oracle per pass. -/
def post_run (db : AttDB) (last : Nat) (os : List (Nat → Outcome)) : AttDB × Nat :=
  os.foldl (fun st o => post_pass st.1 st.2 o) (db, last)

/-- The row filter of FT-ZK.py `post_records` (lines 414-416): a row is
posted when its `RESPONSE` is `None` or the empty string. -/
def ft_selects (r : DbRow) : Bool :=
  r.RESPONSE.isNone || r.RESPONSE == some ""

/-- One record of the loop of FT-ZK.py `post_records` (lines 413-474):
no high-water mark; success updates the three columns, failure changes
nothing. -/
def ftStep (oracle : Nat → Outcome) (db : AttDB) (r : DbRow) : AttDB :=
  match oracle r.id with
  | .netFail => db
  | .httpFail _ => db
  | .ok ack => updateForward db r.id ack

/-- One pass of FT-ZK.py `post_records` (lines 406-474): select all rows
whose forward status is unset and process each. -/
def ft_post_pass (db : AttDB) (oracle : Nat → Outcome) : AttDB :=
  (db.rows.filter ft_selects).foldl (ftStep oracle) db

/-- `PostScript`'s pass with the high-water-mark filter disabled (the
`id > last_processed_id` conjunct dropped, `RESPONSE IS NULL` kept):
the selection the spec calls the un-optimized baseline. -/
def post_pass_nohwm (db : AttDB) (oracle : Nat → Outcome) : AttDB :=
  (db.rows.filter fun r => r.RESPONSE.isNone).foldl
    (fun db' r => (postProcessRecord oracle (db', 0) r).1) db

/-- A sequence of passes of the baseline without the high-water mark. -/
def post_run_nohwm (db : AttDB) (os : List (Nat → Outcome)) : AttDB :=
  os.foldl post_pass_nohwm db

/-! ## Protocol Gateway replies (Cmd.py and FT-ZK.py) -/

/-- A reply as the device sees it: the `Content-Length` value declared in
the header, and the payload bytes actually sent after that header. -/
structure HttpReply where
  contentLength : Nat
  body : String
deriving DecidableEq, Repr

/-- The capability document of Cmd.py `handle_client` (lines 148-168),
sent raw after a header that declares `Content-Length: 450`. -/
def cmdOptionBody (sn : String) : String :=
  "GET OPTION FROM:" ++ sn ++ "\n" ++
  "Stamp=9999\n" ++
  "OpStamp=9999\n" ++
  "PhotoStamp=0\n" ++
  "TransFlag=TransData AttLog\tOpLog\t[ATTPHOTO REMOVED]\tEnrollUser\tChgUser\tEnrollFP\tChgFP\tFPImag\tFACE\tUserPic\tWORKCODE\tBioPhoto\n" ++
  "ErrorDelay=120\n" ++
  "Delay=10\n" ++
  "TimeZone=120\n" ++
  "TransTimes=\n" ++
  "TransInterval=30\n" ++
  "SyncTime=0\n" ++
  "Realtime=1\n" ++
  "ServerVer=2.2.14 2025/02/12\n" ++
  "PushProtVer=2.4.1\n" ++
  "PushOptionsFlag=1\n" ++
  "ATTLOGStamp=9999\n" ++
  "OPERLOGStamp=9999\n" ++
  "ServerName=Logtime Server\n" ++
  "MultiBioDataSupport=0:1:0:0:0:0:0:0:0:0\n"

/-- What one call of Cmd.py `handle_client` (lines 128-223) sends and how
it changes `cmd_count` and the persisted `cmd_count.json` value: the
elif chain of substring tests, then the separate device-acknowledgement
test (`ID=` and `&Return=0&CMD=DATA`, lines 212-217) which is the only
place the counter is incremented and saved. -/
structure CmdResult where
  replies : List HttpReply
  count : Nat
  persisted : Nat
deriving DecidableEq, Repr

/-- Cmd.py `handle_client`: the request string is classified purely by
substring membership; replies pair each `send_http_response` header's
declared length (hard-coded 450 or 4, or `len(cmd_text)`) with the bytes
that are actually sent after it. -/
def cmdHandle (req : String) (count persisted : Nat) (template dateStr : String) : CmdResult :=
  let branchReplies : List HttpReply :=
    if strContains req "GET /iclock/cdata?SN=" &&
       strContains req "&options=all&language=69&pushver=2.4.1&DeviceType=att&PushOptionsFlag=1" then
      let sn := (pySplit ((pySplit req "SN=").getD 1 "") "&").getD 0 ""
      [⟨450, cmdOptionBody sn⟩]
    else if strContains req "GET /iclock/getrequest?SN=" then
      let cmdString := pyReplace (pyReplace template "startTime" dateStr) "endTime" dateStr
      let cmdText := "C:" ++ toString count ++ ":" ++ cmdString
      [⟨4, "OK"⟩, ⟨cmdText.length, cmdText⟩]
    else if strContains req "POST /iclock/cdata?SN=" && strContains req "&table=OPERLOG&Stamp=" then
      [⟨4, "OK"⟩]
    else if strContains req "POST /iclock/devicecmd?SN=" then
      [⟨4, "OK"⟩]
    else []
  if strContains req "ID=" && strContains req "&Return=0&CMD=DATA" then
    ⟨branchReplies ++ [⟨4, "OK"⟩], count + 1, count + 1⟩
  else
    ⟨branchReplies, count, persisted⟩

/-- Cmd.py `load_cmd_count` (lines 41-50) over the modelled
`cmd_count.json` contents: an existing file yields its saved value, a
missing file is created with 0. Returns the loaded counter and the file
contents afterwards. -/
def load_cmd_count : Option Nat → Nat × Option Nat
  | some n => (n, some n)
  | none => (0, some 0)

/-- The capability document of FT-ZK.py `handle_client` (lines 227-248),
sent with `Content-Length: len(body_bytes)`. -/
def ftOptionsBody (sn : String) : String :=
  "GET OPTION FROM:" ++ sn ++ "\n" ++
  "Stamp=9999\n" ++
  "OpStamp=9999\n" ++
  "PhotoStamp=0\n" ++
  "TransFlag=TransData AttLog\tOpLog\tAttPhoto\tEnrollUser\tChgUser\tEnrollFP\tChgFP\tFPImag\tFACE\tUserPic\tWORKCODE\tBioPhoto\n" ++
  "ErrorDelay=120\n" ++
  "Delay=10\n" ++
  "TimeZone=120\n" ++
  "TransTimes=\n" ++
  "TransInterval=30\n" ++
  "SyncTime=0\n" ++
  "Realtime=1\n" ++
  "ServerVer=2.2.14 2025/02/19\n" ++
  "PushProtVer=2.4.1\n" ++
  "PushOptionsFlag=1\n" ++
  "ATTLOGStamp=9999\n" ++
  "OPERLOGStamp=9999\n" ++
  "ATTPHOTOStamp=0\n" ++
  "ServerName=Logtime Server\n" ++
  "MultiBioDataSupport=0:1:0:0:0:0:0:0:0:"

/-- A reply of FT-ZK.py `handle_client`: every branch builds
`body_bytes = body.encode()` and declares `Content-Length: len(body_bytes)`
(lines 192-198 etc.), then sends exactly `body_bytes`. -/
def ftReply (body : String) : HttpReply :=
  ⟨body.utf8ByteSize, body⟩

/-- The FT-ZK getrequest branch (lines 173-201): with an `INFO` query or
a command already sent on this port the body is `OK`; otherwise a
command `C:<counter>:...` is issued and the shared counter incremented. -/
def ft_getrequest (counter : Nat) (sentOnPort hasInfo : Bool) (dt1 dt2 : String) :
    String × Nat × Bool :=
  if hasInfo then ("OK", counter, sentOnPort)
  else if sentOnPort then ("OK", counter, true)
  else ("C:" ++ toString counter ++ ":DATA QUERY ATTLOG StartTime=" ++ dt1 ++ "\tEndTime=" ++ dt2,
        counter + 1, true)

/-- FT-ZK.py line 71: the command counter is a module-level in-memory
variable `global_counter = 1000`; every process start begins here. -/
def ft_initial_counter : Nat := 1000

/-! ## Raw-batch parsing of FT-ZK.py (`parse_log_entry`, `write_to_file`) -/

/-- One record of FT-ZK.py's `attlog.json` (built in `parse_log_entry`
lines 107-119 and completed in `write_to_file` lines 139-149). -/
structure FtRecord where
  zkid : String
  timestamp : String
  inorout : String
  attype : String
  cols : List String
  sn : String
  logTimestamp : String
deriving DecidableEq, Repr

/-- FT-ZK.py `parse_log_entry` (lines 107-119): whitespace-tokenize,
require at least 5 tokens, extra tokens kept as `colN` fields; `sn` and
`log_timestamp` are filled later by `write_to_file`. -/
def parse_log_entry (entry : String) : Option FtRecord :=
  let tokens := pyTokens entry
  if tokens.length < 5 then none
  else some { zkid := tokens.getD 0 "", timestamp := tokens.getD 1 "" ++ " " ++ tokens.getD 2 "",
              inorout := tokens.getD 3 "", attype := tokens.getD 4 "",
              cols := tokens.drop 5, sn := "", logTimestamp := "" }

/-- FT-ZK.py `split_attlog_records` (lines 104-105). -/
def split_attlog_records (s : String) : List String :=
  ((pySplitLines (pyStrip s)).map pyStrip).filter fun l => !l.isEmpty

/-- The body of FT-ZK.py `write_to_file` (lines 121-152) for one queued
batch: parse each line, skip unparsable ones, append records that are
not already present (the clock value is passed in as `ts`). -/
def ft_write_batch (data : List FtRecord) (snVal ts raw : String) : List FtRecord :=
  (split_attlog_records raw).foldl
    (fun data entry =>
      match parse_log_entry entry with
      | none => data
      | some r0 =>
        let r := { r0 with sn := snVal, logTimestamp := ts }
        if r ∈ data then data else data ++ [r])
    data

/-! ## Durability of intermediate-log writes (C7) -/

/-- Observable contents of `attlog.json` while
`AttLogParser.write_to_output` (attlog_parser.py lines 112-135) runs: the
new serialization goes to a `NamedTemporaryFile` and `os.replace` moves
it over the log in one atomic rename, so the log itself is only ever the
old or the new content. -/
def write_to_output_observable (old new : List Char) : List (List Char) :=
  [old, new]

/-- Observable contents of the log while `TcpServer.write_to_file`
(TcpServer.py lines 91-105) runs: `open(filename, 'r+')`, `f.seek(0)`,
`json.dump(data, f)` overwrite the old bytes in place, so after `k`
written bytes the file holds the first `k` bytes of the new serialization
followed by the remainder of the old content. -/
def tcp_write_observable (old new : List Char) : List (List Char) :=
  (List.range (new.length + 1)).map fun k => new.take k ++ old.drop k

/-! ## Concrete fixtures used by witnesses and counterexamples -/

/-- A raw attendance line in the shape `AttLogParser.parse_and_write`
accepts (12 tab-separated parts, contains `attlog`). -/
def content1 : String :=
  "200\t2025-01-16 06:00:46\t0\t15\t0\t0\t0\t255\t0\t0\tattlog-dev\tCP9M221860043"

/-- The sanitized entry produced from `content1`. -/
def entry1 : AttEntry :=
  { ZKID := "200", Timestamp := "2025/01/16 06:00:46", InorOut := 0, attype := 15,
    Device := "attlog-dev", SN := "CP9M221860043", Devrec := "0" }

/-- Parser state after ingesting `content1` into an empty log. -/
def st1 : ParserState := { existing := [entryKey entry1], fileData := [entry1], lastPosition := 0 }

def row1 : DbRow :=
  { id := 1, ZKID := "101", Timestamp := "2025-01-16 06:00:46", InorOut := 0, attype := 15,
    Device := "dev1", SN := "CPX1", Devrec := "0", RESPONSE := none, KEY := none, FTID := none }

def row2 : DbRow :=
  { id := 2, ZKID := "102", Timestamp := "2025-01-16 06:05:00", InorOut := 1, attype := 15,
    Device := "dev1", SN := "CPX1", Devrec := "1", RESPONSE := none, KEY := none, FTID := none }

/-- A store with two unforwarded rows. -/
def db0 : AttDB := { rows := [row1, row2], nextId := 3 }

def ackEx : Ack := { status := "1", key := "k77", rid := "77" }

/-- Remote oracle for one pass: the forward of row id 1 hits a network
failure, every other forward succeeds. -/
def oracleA : Nat → Outcome := fun n => if n = 1 then .netFail else .ok ackEx

/-- Remote oracle where every forward succeeds. -/
def oracleOk : Nat → Outcome := fun _ => .ok ackEx

/-- A batch of 9 valid punch lines and 1 line with only 2 tokens. -/
def batch5 : String :=
  "101 2025-01-16 06:00:46 0 15\n" ++
  "102 2025-01-16 06:01:00 0 15\n" ++
  "103 2025-01-16 06:02:00 0 15\n" ++
  "104 2025-01-16 06:03:00 0 15\n" ++
  "105 2025-01-16 06:04:00 0 15\n" ++
  "bad line\n" ++
  "106 2025-01-16 06:05:00 0 15\n" ++
  "107 2025-01-16 06:06:00 0 15\n" ++
  "108 2025-01-16 06:07:00 0 15\n" ++
  "109 2025-01-16 06:08:00 1 15"

/-- A device poll for a pending command, as received by Cmd.py. -/
def getReqEx : String :=
  "GET /iclock/getrequest?SN=CP9M221860043 HTTP/1.1\r\nHost: 10.0.0.2\r\n\r\n"

/-- A device report of a successful command result, as received by
Cmd.py (matches the `ID=` / `&Return=0&CMD=DATA` test). -/
def ackReqEx : String :=
  "POST /iclock/devicecmd?SN=CP9M221860043 HTTP/1.1\r\n\r\nID=1000&Return=0&CMD=DATA"

/-- The default command template of Cmd.py (line 36). -/
def tmplEx : String := "DATA QUERY ATTLOG StartTime=startTime EndTime=endTime"

/-- A capability-negotiation request, as received by Cmd.py. -/
def optReqEx : String :=
  "GET /iclock/cdata?SN=CP9M221860043&options=all&language=69&pushver=2.4.1&DeviceType=att&PushOptionsFlag=1 HTTP/1.1\r\n\r\n"

/-- An intermediate-log entry describing the same punch as `row1` (its
timestamp renders to `row1.Timestamp` in the store's format). -/
def dupEntry : AttEntry :=
  { ZKID := "101", Timestamp := "2025/01/16 06:00:46", InorOut := 0, attype := 15,
    Device := "dev1", SN := "CPX1", Devrec := "77" }

/-- An intermediate-log entry not yet present in `db0`. -/
def newEntry : AttEntry :=
  { ZKID := "103", Timestamp := "2025/01/16 07:00:00", InorOut := 0, attype := 15,
    Device := "dev1", SN := "CPX1", Devrec := "9" }

/-- The store row created for `newEntry` by the loader. -/
def row3 : DbRow :=
  { id := 3, ZKID := "103", Timestamp := "2025-01-16 07:00:00", InorOut := 0, attype := 15,
    Device := "dev1", SN := "CPX1", Devrec := "9", RESPONSE := none, KEY := none, FTID := none }

/-! ## Lemmas about the dedup loop of `parse_and_write` -/

/-- Keys already seen stay seen. -/
theorem processLines_mono {ls : List String} {seen seen' : List LogKey} {san : List AttEntry}
    (h : processLines seen ls = some (seen', san)) : ∀ k ∈ seen, k ∈ seen' := by
  induction ls generalizing seen san with
  | nil =>
    simp only [processLines, Option.some.injEq, Prod.mk.injEq] at h
    obtain ⟨h1, _⟩ := h
    subst h1
    exact fun k hk => hk
  | cons l ls ih =>
    simp only [processLines] at h
    split at h
    · exact ih h
    · simp at h
    · split at h
      · exact ih h
      · split at h
        · simp at h
        · next seena sana heq =>
          simp only [Option.some.injEq, Prod.mk.injEq] at h
          obtain ⟨h1, _⟩ := h
          subst h1
          exact fun k hk => ih heq k (List.mem_cons_of_mem _ hk)

/-- Every key parsed from the processed lines ends up in the final
seen-key set. -/
theorem processLines_record_mem {ls : List String} {seen seen' : List LogKey}
    {san : List AttEntry} (h : processLines seen ls = some (seen', san)) :
    ∀ l ∈ ls, ∀ e, parseLine l = .record e → entryKey e ∈ seen' := by
  induction ls generalizing seen san with
  | nil => intro l hl; simp at hl
  | cons l0 ls ih =>
    intro l hl e hrec
    simp only [processLines] at h
    rcases List.mem_cons.mp hl with hl | hl
    · subst hl
      split at h
      · next heq => rw [hrec] at heq; simp at heq
      · next heq => rw [hrec] at heq; simp at heq
      · next a heq =>
        rw [hrec] at heq
        injection heq with h'
        subst h'
        split at h
        · next hm => exact processLines_mono h _ hm
        · split at h
          · simp at h
          · next seena sana heq2 =>
            simp only [Option.some.injEq, Prod.mk.injEq] at h
            obtain ⟨h1, _⟩ := h
            subst h1
            exact processLines_mono heq2 _ (List.mem_cons_self _ _)
    · split at h
      · exact ih h l hl e hrec
      · simp at h
      · split at h
        · exact ih h l hl e hrec
        · split at h
          · simp at h
          · next seena sana heq =>
            simp only [Option.some.injEq, Prod.mk.injEq] at h
            obtain ⟨h1, _⟩ := h
            subst h1
            exact ih heq l hl e hrec

/-- Every key in the final seen-set was already seen or belongs to an
appended record. -/
theorem processLines_seen_sub {ls : List String} {seen seen' : List LogKey}
    {san : List AttEntry} (h : processLines seen ls = some (seen', san)) :
    ∀ k ∈ seen', k ∈ seen ∨ k ∈ san.map entryKey := by
  induction ls generalizing seen san with
  | nil =>
    simp only [processLines, Option.some.injEq, Prod.mk.injEq] at h
    obtain ⟨h1, h2⟩ := h
    subst h1
    exact fun k hk => Or.inl hk
  | cons l ls ih =>
    simp only [processLines] at h
    split at h
    · exact ih h
    · simp at h
    · next e hp =>
      split at h
      · exact ih h
      · split at h
        · simp at h
        · next seena sana heq =>
          simp only [Option.some.injEq, Prod.mk.injEq] at h
          obtain ⟨h1, h2⟩ := h
          subst h1
          subst h2
          intro k hk
          rcases ih heq k hk with hk' | hk'
          · rcases List.mem_cons.mp hk' with hk'' | hk''
            · exact Or.inr (by simp [hk''])
            · exact Or.inl hk''
          · exact Or.inr (by simp; right; simpa using hk')

/-- A successful run means no line aborted the loop. -/
theorem processLines_noAbort {ls : List String} {seen : List LogKey}
    {res : List LogKey × List AttEntry} (h : processLines seen ls = some res) :
    ∀ l ∈ ls, parseLine l ≠ .abort := by
  induction ls generalizing seen res with
  | nil => intro l hl; simp at hl
  | cons l0 ls ih =>
    intro l hl
    simp only [processLines] at h
    rcases List.mem_cons.mp hl with hl | hl
    · subst hl
      split at h
      · next hp => simp [hp]
      · simp at h
      · next e hp => simp [hp]
    · split at h
      · exact ih h l hl
      · simp at h
      · split at h
        · exact ih h l hl
        · split at h
          · simp at h
          · next seena sana heq => exact ih heq l hl

/-- When no line aborts and every parsed key is already seen, the loop
is a no-op: nothing is appended and the seen-set is unchanged. -/
theorem processLines_stable {ls : List String} {seen : List LogKey}
    (hab : ∀ l ∈ ls, parseLine l ≠ .abort)
    (hseen : ∀ l ∈ ls, ∀ e, parseLine l = .record e → entryKey e ∈ seen) :
    processLines seen ls = some (seen, []) := by
  induction ls with
  | nil => rfl
  | cons l ls ih =>
    have ih' := ih (fun x hx => hab x (List.mem_cons_of_mem _ hx))
      (fun x hx e he => hseen x (List.mem_cons_of_mem _ hx) e he)
    cases hp : parseLine l with
    | skip => simpa only [processLines, hp] using ih'
    | abort => exact absurd hp (hab l (List.mem_cons_self _ _))
    | record e =>
      have hm : entryKey e ∈ seen := hseen l (List.mem_cons_self _ _) e hp
      simp only [processLines, hp, if_pos hm]
      exact ih'

/-- Resubmitting a successfully ingested payload to the running parser
appends nothing. -/
theorem parse_and_write_again {f : List AttEntry} {c : String} {st' : ParserState}
    (h : parse_and_write (initParser f) c = some st') :
    parse_and_write st' c = some st' := by
  unfold parse_and_write at h
  cases hpl : processLines (initParser f).existing (pySplitLines c) with
  | none => rw [hpl] at h; simp at h
  | some p =>
    obtain ⟨seen', san⟩ := p
    rw [hpl] at h
    simp only [Option.some.injEq] at h
    subst h
    have h1 : processLines seen' (pySplitLines c) = some (seen', []) :=
      processLines_stable (processLines_noAbort hpl) (processLines_record_mem hpl)
    unfold parse_and_write
    simp only [h1, List.append_nil]

/-- Resubmitting a successfully ingested payload to a parser restarted
over the updated log appends nothing either: the hydrated seen-key set
already contains every key of the payload. -/
theorem parse_and_write_restart {f : List AttEntry} {c : String} {st' : ParserState}
    (h : parse_and_write (initParser f) c = some st') :
    parse_and_write (initParser st'.fileData) c = some (initParser st'.fileData) := by
  unfold parse_and_write at h
  cases hpl : processLines (initParser f).existing (pySplitLines c) with
  | none => rw [hpl] at h; simp at h
  | some p =>
    obtain ⟨seen', san⟩ := p
    rw [hpl] at h
    simp only [Option.some.injEq] at h
    subst h
    have hnab := processLines_noAbort hpl
    have hrec := processLines_record_mem hpl
    have hsub := processLines_seen_sub hpl
    have hrec' : ∀ l ∈ pySplitLines c, ∀ e, parseLine l = .record e →
        entryKey e ∈ load_existing_data (f ++ san) := by
      intro l hl e hp
      have hk := hrec l hl e hp
      rcases hsub _ hk with hk' | hk'
      · simp only [initParser, load_existing_data] at hk' ⊢
        rw [List.map_append]
        exact List.mem_append.mpr (Or.inl hk')
      · simp only [load_existing_data]
        rw [List.map_append]
        exact List.mem_append.mpr (Or.inr hk')
    have h1 : processLines (load_existing_data (f ++ san)) (pySplitLines c) =
        some (load_existing_data (f ++ san), []) :=
      processLines_stable hnab hrec'
    unfold parse_and_write initParser
    simp only [h1, List.append_nil]

/-- C1. Ingestion is idempotent: starting from a parser hydrated from
the current intermediate log, if submitting a punch payload succeeds and
produces state `st'`, then submitting the very same payload again — on
the running parser or on a parser restarted over the updated log —
changes nothing: every record's key is already in the seen-key set, so
it is dropped and no entry is appended. -/
theorem specC1 (f : List AttEntry) (c : String) (st' : ParserState)
    (h : parse_and_write (initParser f) c = some st') :
    parse_and_write st' c = some st' ∧
    parse_and_write (initParser st'.fileData) c = some (initParser st'.fileData) :=
  ⟨parse_and_write_again h, parse_and_write_restart h⟩

/-- Witness for C1 on a concrete one-line payload over an empty log. -/
theorem specC1_witness :
    parse_and_write st1 content1 = some st1 ∧
    parse_and_write (initParser st1.fileData) content1 = some (initParser st1.fileData) :=
  specC1 [] content1 st1 (by decide)

/-! ## Lemmas about the store's uniqueness invariant -/

/-- Appending a row whose key clashes with no existing row preserves key
distinctness. -/
theorem rowsKeyDistinct_append {l : List DbRow} {r : DbRow}
    (hl : rowsKeyDistinct l = true)
    (hr : ∀ s ∈ l, (s.ZKID == r.ZKID && s.Timestamp == r.Timestamp) = false) :
    rowsKeyDistinct (l ++ [r]) = true := by
  induction l with
  | nil => simp [rowsKeyDistinct]
  | cons a l ih =>
    simp only [rowsKeyDistinct, Bool.and_eq_true, List.all_eq_true] at hl
    obtain ⟨ha, hl'⟩ := hl
    have hr' : ∀ s ∈ l, (s.ZKID == r.ZKID && s.Timestamp == r.Timestamp) = false :=
      fun s hs => hr s (List.mem_cons_of_mem _ hs)
    have hra := hr a (List.mem_cons_self _ _)
    simp only [List.cons_append, rowsKeyDistinct, Bool.and_eq_true, List.all_eq_true]
    refine ⟨?_, ih hl' hr'⟩
    intro s hs
    rcases List.mem_append.mp hs with hs | hs
    · exact ha s hs
    · simp only [List.mem_singleton] at hs
      subst hs
      simp [hra]

/-- `insertPunch` preserves the `(ZKID, Timestamp)` distinctness of the
table (the unique index blocks any clashing insert). -/
theorem insertPunch_distinct {db : AttDB} (h : rowsKeyDistinct db.rows = true)
    (z ts : String) (io ty : Int) (dev sn dr : String) :
    rowsKeyDistinct (insertPunch db z ts io ty dev sn dr).rows = true := by
  unfold insertPunch
  split
  · exact h
  · next hv =>
    have hv' : violatesUnique db z ts = false := by
      cases hq : violatesUnique db z ts
      · rfl
      · exact absurd hq hv
    unfold violatesUnique at hv'
    rw [List.any_eq_false] at hv'
    apply rowsKeyDistinct_append h
    intro s hs
    have := hv' s hs
    simpa using this

/-- `processEntryDb` preserves the store invariant. -/
theorem processEntryDb_distinct {p : List LogKey} {db : AttDB} {e : AttEntry}
    (h : rowsKeyDistinct db.rows = true) :
    rowsKeyDistinct (processEntryDb p db e).2.rows = true := by
  unfold processEntryDb
  split
  · exact h
  · split
    · exact h
    · split
      · exact h
      · exact insertPunch_distinct h _ _ _ _ _ _ _

/-- The loader pass preserves the store invariant, whatever the
in-memory `processed_entries` state is (in particular after a restart). -/
theorem process_attlog_distinct {content : List AttEntry} {p : List LogKey} {db : AttDB}
    (h : rowsKeyDistinct db.rows = true) :
    rowsKeyDistinct (process_attlog_file p db content).2.rows = true := by
  induction content generalizing p db with
  | nil => exact h
  | cons e es ih =>
    have h' : rowsKeyDistinct (processEntryDb p db e).2.rows = true := processEntryDb_distinct h
    have := ih (p := (processEntryDb p db e).1) h'
    simpa [process_attlog_file, List.foldl_cons] using this

/-- An entry whose `(ZKID, Timestamp)` key is already stored leaves the
table unchanged: either the `record_exists` pre-check skips it, or the
insert hits the unique index and the swallowed error changes nothing. -/
theorem processEntryDb_unchanged_of_present {p : List LogKey} {db : AttDB} {e : AttEntry}
    {r : DbRow} (hr : r ∈ db.rows) (hz : r.ZKID = e.ZKID)
    (hts : formatToSql e.Timestamp = some r.Timestamp) :
    (processEntryDb p db e).2 = db := by
  unfold processEntryDb
  split
  · rfl
  · simp only [hts]
    split
    · rfl
    · show (insertPunch db e.ZKID r.Timestamp e.InorOut e.attype e.Device e.SN e.Devrec) = db
      unfold insertPunch
      rw [if_pos]
      unfold violatesUnique
      rw [List.any_eq_true]
      exact ⟨r, hr, by simp [hz]⟩

/-- C3. The Attendance Store never holds two rows with the same
`(ZKID, Timestamp)` pair: any loader pass — with any in-memory
`processed_entries` state, hence also on fresh connections or after a
restart — preserves the distinctness guaranteed by `Main.check_db`'s
unique index, and an entry whose key is already stored produces no new
row (the duplicate insert is swallowed, processing continues). -/
theorem specC3 (p : List LogKey) (db : AttDB) (content : List AttEntry)
    (hu : rowsKeyDistinct db.rows = true) :
    rowsKeyDistinct (process_attlog_file p db content).2.rows = true ∧
    (∀ e : AttEntry, ∀ r ∈ db.rows, r.ZKID = e.ZKID →
      formatToSql e.Timestamp = some r.Timestamp → (processEntryDb p db e).2 = db) :=
  ⟨process_attlog_distinct hu,
   fun _ _ hr hz hts => processEntryDb_unchanged_of_present hr hz hts⟩

/-- Witness for C3: re-offering `row1`'s punch (different `Devrec`, same
`(ZKID, Timestamp)`) to a store containing it changes nothing. -/
theorem specC3_witness :
    rowsKeyDistinct (process_attlog_file [] db0 [dupEntry]).2.rows = true ∧
    (processEntryDb [] db0 dupEntry).2 = db0 := by
  have h := specC3 [] db0 [dupEntry] (by decide)
  exact ⟨h.1, h.2 dupEntry row1 (by decide) (by decide) (by decide)⟩

/-- Rows affected by one loader step are either pre-existing or
freshly inserted with all three forward-status columns `NULL`. -/
theorem processEntryDb_new_rows {p : List LogKey} {db : AttDB} {e : AttEntry} :
    ∀ r ∈ (processEntryDb p db e).2.rows,
      r ∈ db.rows ∨ (r.RESPONSE = none ∧ r.KEY = none ∧ r.FTID = none) := by
  unfold processEntryDb
  split
  · exact fun r hr => Or.inl hr
  · split
    · exact fun r hr => Or.inl hr
    · split
      · exact fun r hr => Or.inl hr
      · intro r hr
        simp only [insertPunch] at hr
        split at hr
        · exact Or.inl hr
        · rcases List.mem_append.mp hr with hr | hr
          · exact Or.inl hr
          · simp only [List.mem_singleton] at hr
            subst hr
            exact Or.inr ⟨rfl, rfl, rfl⟩

/-- Rows present after a loader pass are pre-existing or start with all
three forward-status columns `NULL`. -/
theorem process_attlog_new_rows {content : List AttEntry} {p : List LogKey} {db : AttDB} :
    ∀ r ∈ (process_attlog_file p db content).2.rows,
      r ∈ db.rows ∨ (r.RESPONSE = none ∧ r.KEY = none ∧ r.FTID = none) := by
  induction content generalizing p db with
  | nil => exact fun r hr => Or.inl hr
  | cons e es ih =>
    intro r hr
    have hr' : r ∈ (process_attlog_file (processEntryDb p db e).1
        (processEntryDb p db e).2 es).2.rows := by
      simpa [process_attlog_file, List.foldl_cons] using hr
    rcases ih r hr' with h | h
    · exact processEntryDb_new_rows r h
    · exact Or.inr h

/-- C10. Every row the Attendance Store loader inserts sets only the
punch columns: its `RESPONSE`, `KEY` and `FTID` are `NULL`, so the new
row passes the `RESPONSE IS NULL` test of `fetch_new_records` and is
eligible for Outbound Sync's selection. -/
theorem specC10 (p : List LogKey) (db : AttDB) (content : List AttEntry) :
    ∀ r ∈ (process_attlog_file p db content).2.rows, r ∉ db.rows →
      (r.RESPONSE = none ∧ r.KEY = none ∧ r.FTID = none) ∧
      ∀ last : Nat, last < r.id →
        r ∈ fetch_new_records (process_attlog_file p db content).2 last := by
  intro r hr hnew
  rcases process_attlog_new_rows r hr with h | h
  · exact absurd h hnew
  · refine ⟨h, ?_⟩
    intro last hlast
    unfold fetch_new_records
    rw [List.mem_filter]
    refine ⟨hr, ?_⟩
    simp [h.1, hlast]

/-- Witness for C10: the row created for `newEntry` starts unforwarded
and is selected by the poll query. -/
theorem specC10_witness :
    (row3.RESPONSE = none ∧ row3.KEY = none ∧ row3.FTID = none) ∧
    row3 ∈ fetch_new_records (process_attlog_file [] db0 [newEntry]).2 0 := by
  have h := specC10 [] db0 [newEntry] row3 (by decide) (by decide)
  exact ⟨h.1, h.2 0 (by decide)⟩


/-! ## Lemmas about the FT-ZK forwarding pass -/

/-- A row whose id differs from the processed record's id is untouched by
one step of `post_records`. -/
theorem ftStep_mem {o : Nat → Outcome} {db : AttDB} {s r : DbRow}
    (hr : r ∈ db.rows) (hne : r.id ≠ s.id) : r ∈ (ftStep o db s).rows := by
  unfold ftStep
  split
  · exact hr
  · exact hr
  · rename_i ack heq
    show r ∈ db.rows.map fun t => if t.id == s.id then forwardRow t ack else t
    have hfr : (fun t => if t.id == s.id then forwardRow t ack else t) r = r := by
      simp [hne]
    exact hfr ▸ List.mem_map_of_mem _ hr

/-- Processing a snapshot none of whose records carries `r`'s id leaves
`r` in the table unchanged. -/
theorem ft_frame {o : Nat → Outcome} {l : List DbRow} {db : AttDB} {r : DbRow}
    (hr : r ∈ db.rows) (hid : ∀ s ∈ l, s.id ≠ r.id) :
    r ∈ (l.foldl (ftStep o) db).rows := by
  induction l generalizing db with
  | nil => exact hr
  | cons s l ih =>
    rw [List.foldl_cons]
    exact ih (ftStep_mem hr fun h => hid s (List.mem_cons_self _ _) h.symm)
      fun s' hs' => hid s' (List.mem_cons_of_mem _ hs')

/-- When the remote call for `r` succeeds, the single update statement
sets exactly the three forward-status columns of `r`. -/
theorem ft_hit_ok {o : Nat → Outcome} {l : List DbRow} {db : AttDB} {r : DbRow} {ack : Ack}
    (hl : l.Pairwise fun a b => a.id ≠ b.id) (hrl : r ∈ l) (hr : r ∈ db.rows)
    (hok : o r.id = .ok ack) :
    forwardRow r ack ∈ (l.foldl (ftStep o) db).rows := by
  induction l generalizing db with
  | nil => simp at hrl
  | cons s l ih =>
    have hpc := List.pairwise_cons.mp hl
    rw [List.foldl_cons]
    rcases List.mem_cons.mp hrl with hrl | hrl
    · subst hrl
      have h1 : forwardRow r ack ∈ (ftStep o db r).rows := by
        simp only [ftStep, hok]
        show forwardRow r ack ∈ db.rows.map fun t => if t.id == r.id then forwardRow t ack else t
        have hfr : (fun t => if t.id == r.id then forwardRow t ack else t) r = forwardRow r ack := by
          simp
        exact hfr ▸ List.mem_map_of_mem _ hr
      exact ft_frame h1 fun s' hs' => Ne.symm (hpc.1 s' hs')
    · exact ih hpc.2 hrl (ftStep_mem hr fun h => (hpc.1 r hrl) h.symm)

/-- When the remote call for `r` fails (network or non-200), `r` is left
completely unchanged by the pass. -/
theorem ft_hit_fail {o : Nat → Outcome} {l : List DbRow} {db : AttDB} {r : DbRow}
    (hl : l.Pairwise fun a b => a.id ≠ b.id) (hrl : r ∈ l) (hr : r ∈ db.rows)
    (hfail : o r.id = .netFail ∨ ∃ c, o r.id = .httpFail c) :
    r ∈ (l.foldl (ftStep o) db).rows := by
  induction l generalizing db with
  | nil => simp at hrl
  | cons s l ih =>
    have hpc := List.pairwise_cons.mp hl
    rw [List.foldl_cons]
    rcases List.mem_cons.mp hrl with hrl | hrl
    · subst hrl
      have h1 : r ∈ (ftStep o db r).rows := by
        rcases hfail with hf | ⟨c, hf⟩ <;> simp only [ftStep, hf] <;> exact hr
      exact ft_frame h1 fun s' hs' => Ne.symm (hpc.1 s' hs')
    · exact ih hpc.2 hrl (ftStep_mem hr fun h => (hpc.1 r hrl) h.symm)

/-- C2 (amended). For the FT-ZK forwarder `post_records`, on a store with
distinct surrogate ids: a selected row whose forward succeeds with a
well-formed acknowledgement gets its three forward-status columns written
by the one update statement (`forwardRow`); a selected row whose forward
fails is left completely unchanged and is still selected on the next
poll; a row whose forward status is already set is never touched again,
so no row is forwarded twice. (In the `Post.py` variant the retry clause
additionally requires that no higher-id row succeeded in the same pass —
see the counterexample.) -/
theorem specC2 (db : AttDB) (o : Nat → Outcome)
    (hids : (db.rows.map DbRow.id).Nodup) :
    ∀ r ∈ db.rows,
      (∀ ack, o r.id = Outcome.ok ack → ft_selects r = true →
        forwardRow r ack ∈ (ft_post_pass db o).rows) ∧
      ((o r.id = Outcome.netFail ∨ ∃ c, o r.id = Outcome.httpFail c) → ft_selects r = true →
        r ∈ (ft_post_pass db o).rows ∧
        r ∈ (ft_post_pass db o).rows.filter ft_selects) ∧
      (ft_selects r = false → r ∈ (ft_post_pass db o).rows) := by
  have hpw : db.rows.Pairwise (fun a b => a.id ≠ b.id) := (List.pairwise_map).mp hids
  have hpwf : (db.rows.filter ft_selects).Pairwise (fun a b => a.id ≠ b.id) :=
    hpw.sublist (List.filter_sublist _)
  intro r hr
  refine ⟨?_, ?_, ?_⟩
  · intro ack hok hsel
    exact ft_hit_ok hpwf (List.mem_filter.mpr ⟨hr, hsel⟩) hr hok
  · intro hfail hsel
    have hmem := ft_hit_fail hpwf (List.mem_filter.mpr ⟨hr, hsel⟩) hr hfail
    exact ⟨hmem, List.mem_filter.mpr ⟨hmem, hsel⟩⟩
  · intro hsel
    apply ft_frame hr
    intro s hs
    have hsrow := (List.mem_filter.mp hs).1
    by_cases hsr : s = r
    · subst hsr
      exact absurd (List.mem_filter.mp hs).2 (by simp [hsel])
    · exact List.Pairwise.forall (fun _ _ h => Ne.symm h) hpw hsrow hr hsr

/-- Witness for C2: with the oracle that fails on row id 1 and succeeds
elsewhere, `row2` gets its three columns set in one update and `row1` is
unchanged and still selected on the next poll. -/
theorem specC2_witness :
    forwardRow row2 ackEx ∈ (ft_post_pass db0 oracleA).rows ∧
    row1 ∈ (ft_post_pass db0 oracleA).rows ∧
    row1 ∈ (ft_post_pass db0 oracleA).rows.filter ft_selects := by
  refine ⟨?_, ?_⟩
  · exact (specC2 db0 oracleA (by decide) row2 (by decide)).1 ackEx (by decide) (by decide)
  · exact (specC2 db0 oracleA (by decide) row1 (by decide)).2.1 (Or.inl (by decide)) (by decide)

/-- Counterexample for C2 as stated: in the `Post.py` forwarder, after a
pass over `db0` in which row 1's forward hit a network failure and row
2's succeeded, the high-water mark is 2, row 1 is still unforwarded
(`RESPONSE` unset), yet the next poll selects nothing — and even a remote
that now always succeeds changes nothing — so the failed row is not
retried on the next poll, contradicting the claim. -/
theorem specC2_counterexample :
    (post_pass db0 0 oracleA).2 = 2 ∧
    row1 ∈ (post_pass db0 0 oracleA).1.rows ∧
    row1.RESPONSE = none ∧
    fetch_new_records (post_pass db0 0 oracleA).1 (post_pass db0 0 oracleA).2 = [] ∧
    post_pass (post_pass db0 0 oracleA).1 (post_pass db0 0 oracleA).2 oracleOk =
      ((post_pass db0 0 oracleA).1, (post_pass db0 0 oracleA).2) := by
  decide

/-- C4 evaluated at the failing inputs: the FT-ZK gateway always declares
`Content-Length` equal to the byte length of the body it sends
(`ftReply` pairs them by construction), but Cmd.py's `handle_client`
answers a getrequest with a header declaring length 4 followed by the
2-byte body `OK`, and answers an options request with a header declaring
the hard-coded length 450 followed by a capability document whose real
byte length is 444 — and varies with the serial (432 for serial `A`), so
no fixed declaration can be exact. -/
theorem specC4 :
    (∀ body : String, (ftReply body).contentLength = body.utf8ByteSize) ∧
    (cmdHandle getReqEx 1000 1000 tmplEx "2025/02/12").replies.getD 0 ⟨0, ""⟩ = ⟨4, "OK"⟩ ∧
    ("OK" : String).utf8ByteSize = 2 ∧
    (cmdHandle optReqEx 1000 1000 tmplEx "2025/02/12").replies =
      [⟨450, cmdOptionBody "CP9M221860043"⟩] ∧
    (cmdOptionBody "CP9M221860043").utf8ByteSize = 444 ∧
    (cmdOptionBody "A").utf8ByteSize = 432 :=
  ⟨fun _ => rfl, by set_option maxRecDepth 4000 in decide⟩

/-- C5. Malformed-line tolerance of the FT-ZK normalizer: a line parses
to `none` exactly when it has fewer than 5 whitespace tokens (parsing is
total, so a bad line can never abort a batch), and the concrete batch of
9 valid lines plus 1 two-token line stores exactly 9 records. -/
theorem specC5 :
    (∀ line : String, parse_log_entry line = none ↔ (pyTokens line).length < 5) ∧
    (ft_write_batch [] "CP9M221860043" "2025-01-16 06:10:00:000" batch5).length = 9 := by
  constructor
  · intro line
    unfold parse_log_entry
    by_cases h : (pyTokens line).length < 5
    · simp [h]
    · simp [h]
  · decide

/-- C6 evaluated at the failing input: over `db0` (rows 1 and 2
unforwarded), run the pass where row 1's forward fails and row 2's
succeeds, then a pass where every forward succeeds. With the high-water
mark filter, row 1 is still unforwarded afterwards and the next poll
selects nothing; with the filter dropped, row 1 is forwarded on the
second pass — the eventually-forwarded sets differ, so the filter is not
an optimization only. -/
theorem specC6 :
    (post_run db0 0 [oracleA, oracleOk]).1.rows = [row1, forwardRow row2 ackEx] ∧
    fetch_new_records (post_run db0 0 [oracleA, oracleOk]).1
      (post_run db0 0 [oracleA, oracleOk]).2 = [] ∧
    (post_run_nohwm db0 [oracleA, oracleOk]).rows =
      [forwardRow row1 ackEx, forwardRow row2 ackEx] ∧
    (post_run db0 0 [oracleA, oracleOk]).1.rows ≠ (post_run_nohwm db0 [oracleA, oracleOk]).rows := by
  decide

/-- Counterexample for C7 as stated: while `TcpServer.write_to_file`
rewrites the log in place, an interrupted write over the old content
`[]` heading for the new content `[1,2,3]` can leave the file reading
`[1,` — neither the old nor the new log, i.e. a half-written log. -/
theorem specC7_counterexample :
    "[1,".data ∈ tcp_write_observable "[]".data "[1,2,3]".data ∧
    "[1,".data ≠ "[]".data ∧ "[1,".data ≠ "[1,2,3]".data := by
  decide

/-- C7 (amended). Appends performed by `AttLogParser.write_to_output` go
through a temp file and one atomic `os.replace`, so a reader (or a
restart after a crash mid-write) only ever observes the old or the new
log, and a parser restarted over the updated log still recognizes every
previously ingested key as seen; the in-place writer
`TcpServer.write_to_file` does not have this property (see the
counterexample). -/
theorem specC7 :
    (∀ old new s : List Char, s ∈ write_to_output_observable old new → s = old ∨ s = new) ∧
    (∀ f : List AttEntry, ∀ c : String, ∀ st' : ParserState,
      parse_and_write (initParser f) c = some st' →
      parse_and_write (initParser st'.fileData) c = some (initParser st'.fileData)) := by
  constructor
  · intro old new s hs
    simp only [write_to_output_observable] at hs
    rcases List.mem_cons.mp hs with h | h
    · exact Or.inl h
    · simp only [List.mem_singleton] at h
      exact Or.inr h
  · intro f c st' h
    exact parse_and_write_restart h

/-- Witness for C7: atomic observability at concrete contents, and
restart recognition after ingesting `content1`. -/
theorem specC7_witness :
    ("[]".data = "[]".data ∨ "[]".data = "[7]".data) ∧
    parse_and_write (initParser st1.fileData) content1 = some (initParser st1.fileData) := by
  have h := specC7
  exact ⟨h.1 "[]".data "[7]".data "[]".data (by decide),
         h.2 [] content1 st1 (by decide)⟩

/-- Counterexample for C8 as stated: Cmd.py answers a device poll by
issuing the command `C:1000:...` tagged with the current counter value,
yet neither the in-memory counter nor the persisted value changes — the
counter does not increment on command issuance. (It increments only when
the device later reports `ID=...&Return=0&CMD=DATA`.) In the FT-ZK
variant the counter does increment on issuance but every process start
resets it to 1000, so continuity does not survive restarts. -/
theorem specC8_counterexample :
    (cmdHandle getReqEx 1000 1000 tmplEx "2025/02/12").replies =
      [⟨4, "OK"⟩,
       ⟨64, "C:1000:DATA QUERY ATTLOG StartTime=2025/02/12 EndTime=2025/02/12"⟩] ∧
    (cmdHandle getReqEx 1000 1000 tmplEx "2025/02/12").count = 1000 ∧
    (cmdHandle getReqEx 1000 1000 tmplEx "2025/02/12").persisted = 1000 ∧
    ft_initial_counter = 1000 := by
  set_option maxRecDepth 4000 in decide

/-- C8 (amended). Each variant keeps a single counter shared across all
device ports. In Cmd.py the counter is persisted (`cmd_count.json`) and
reloading the saved value preserves continuity across restarts, but it
increments — and is saved — only when a device acknowledges a command
result (`ID=...&Return=0&CMD=DATA`), not on each command issued: a poll
that issues a command leaves both the counter and the persisted value
unchanged. In FT-ZK.py the counter increments on each command issued but
lives only in memory, starting at 1000 on every process start. -/
theorem specC8 :
    (∀ count persisted : Nat, ∀ template dateStr : String,
      (cmdHandle ackReqEx count persisted template dateStr).count = count + 1 ∧
      (cmdHandle ackReqEx count persisted template dateStr).persisted = count + 1) ∧
    (∀ count persisted : Nat, ∀ template dateStr : String,
      (cmdHandle getReqEx count persisted template dateStr).count = count ∧
      (cmdHandle getReqEx count persisted template dateStr).persisted = persisted) ∧
    (∀ n : Nat, load_cmd_count (some n) = (n, some n)) ∧
    (∀ c : Nat, ∀ dt1 dt2 : String, (ft_getrequest c false false dt1 dt2).2.1 = c + 1) ∧
    ft_initial_counter = 1000 :=
  ⟨fun _ _ _ _ => ⟨rfl, rfl⟩, fun _ _ _ _ => ⟨rfl, rfl⟩, fun _ => rfl, fun _ _ _ => rfl, rfl⟩

/-- `parse_and_write` never touches `last_position`. -/
theorem parse_and_write_lastPos {st st' : ParserState} {c : String}
    (h : parse_and_write st c = some st') : st'.lastPosition = st.lastPosition := by
  unfold parse_and_write at h
  cases hpl : processLines st.existing (pySplitLines c) with
  | none => rw [hpl] at h; simp at h
  | some p =>
    obtain ⟨a, b⟩ := p
    rw [hpl] at h
    simp only [Option.some.injEq] at h
    subst h
    rfl

/-- Counterexample for C9 as stated: a parser over an empty log reads a
log text that yields no store write at all, yet its offset jumps from 0
to 11 (it advances at read time, not after a successful store write);
and a restarted parser starts at offset 0 again regardless of history,
so the cursor neither survives restarts nor never-decreases. -/
theorem specC9_counterexample :
    check_for_new_content (initParser []) "hello world" =
      some { existing := [], fileData := [], lastPosition := 11 } ∧
    (initParser []).lastPosition = 0 := by
  decide

/-- C9 (amended). The loader's resume state is not a persisted cursor:
`AttLogParser.last_position` is an in-memory byte offset that every
constructed parser starts at 0, and that `check_for_new_content` always
advances to the end of the read file text (monotonically, as the log
only grows within a run) whether or not any store write happened.
Idempotent resumption after a restart is provided instead by the store's
duplicate checks: re-absorbing an entry whose key is already stored
leaves the table unchanged. -/
theorem specC9 :
    (∀ f : List AttEntry, (initParser f).lastPosition = 0) ∧
    (∀ st st' : ParserState, ∀ text : String,
      check_for_new_content st text = some st' →
      st'.lastPosition = text.data.length ∧
      (st.lastPosition ≤ text.data.length → st.lastPosition ≤ st'.lastPosition)) ∧
    (∀ p : List LogKey, ∀ db : AttDB, ∀ e : AttEntry, ∀ r ∈ db.rows,
      r.ZKID = e.ZKID → formatToSql e.Timestamp = some r.Timestamp →
      (processEntryDb p db e).2 = db) := by
  refine ⟨fun _ => rfl, ?_, ?_⟩
  · intro st st' text h
    simp only [check_for_new_content] at h
    split at h
    · simp only [Option.some.injEq] at h
      subst h
      exact ⟨rfl, fun hle => hle⟩
    · have := parse_and_write_lastPos h
      rw [this]
      exact ⟨rfl, fun hle => hle⟩
  · intro p db e r hr hz hts
    exact processEntryDb_unchanged_of_present hr hz hts

/-- Witness for C9: the offset lands at the end of the read text, and
re-absorbing `row1`'s punch leaves the store unchanged. -/
theorem specC9_witness :
    (initParser ([] : List AttEntry)).lastPosition = 0 ∧
    ({ existing := [], fileData := [], lastPosition := 11 } : ParserState).lastPosition =
      ("hello world" : String).data.length ∧
    (processEntryDb [] db0 dupEntry).2 = db0 := by
  have h := specC9
  exact ⟨h.1 [],
         (h.2.1 (initParser []) { existing := [], fileData := [], lastPosition := 11 }
           "hello world" (by decide)).1,
         h.2.2 [] db0 dupEntry row1 (by decide) (by decide) (by decide)⟩
